import Mathlib

/-!
# Verification of the OCM abstraction orchestrator (src/functions.js)

Shallow embedding of the credential-issuance orchestrator. The repository
consists of four service-client functions that unwrap a JSON response
envelope (`response.data.*`) and an orchestrator `tests` that sequences
them with two polling loops.

Modelling conventions:
* JSON values are the inductive `Js` (strings, objects, arrays); a JS
  expression that may be `undefined` is an `Option Js`.
* JS member access `x.f` throws a TypeError when `x` is `undefined` and
  yields `undefined` when the field is absent; `jsAccess` mirrors this
  with `Except`.
* The external transport is a parameter: each client function takes the
  parsed response body it would have received and returns the list of
  HTTP requests it issues (as `Event`s) together with its result.
* The two `while (true)` polling loops are modelled with an explicit
  fuel parameter: `LoopOutcome.timeout` means the fuel ran out while the
  loop was still running, so non-termination of the source loop shows up
  as `timeout` for every fuel value.
* `console.log` output and `wait` delays are recorded as `Event`s so
  that temporal claims can be stated over the event trace.
-/

/-- JSON-like values produced by parsing a service response. -/
inductive Js where
  | str (s : String)
  | obj (fields : List (String × Js))
  | arr (items : List Js)

mutual

/-- JS string coercion (template literals, loose equality with a string):
strings are themselves, plain objects print as "[object Object]", arrays
join their stringified elements with commas. -/
def jsToString : Js → String
  | .str s => s
  | .obj _ => "[object Object]"
  | .arr items => jsListToString items

/-- Stringification of a JS array body: elements joined by commas. -/
def jsListToString : List Js → String
  | [] => ""
  | [x] => jsToString x
  | x :: y :: xs => jsToString x ++ "," ++ jsListToString (y :: xs)

end

/-- Coercion of a possibly-undefined JS value to a string, as used by
template literals and `console.log`. -/
def jsValToString : Option Js → String
  | none => "undefined"
  | some j => jsToString j

/-- JS loose equality `v == s` against a string literal, for the values
representable in `Js`: `undefined` is never equal, other values compare
by string coercion. -/
def looseEqStr (v : Option Js) (s : String) : Bool :=
  match v with
  | none => false
  | some j => jsToString j == s

/-- Property read on a defined JS value: objects look the field up
(first binding wins), every other value yields `undefined`. -/
def Js.get : Js → String → Option Js
  | .obj fields, field => fields.lookup field
  | .str _, _ => none
  | .arr _, _ => none

/-- The message of the TypeError raised by reading a property of
`undefined`. -/
def typeErrorReading (field : String) : String :=
  "TypeError: Cannot read properties of undefined (reading " ++ field ++ ")"

/-- JS member access `base.field`: throws a TypeError when the base is
`undefined`, otherwise reads the property. -/
def jsAccess : Option Js → String → Except String (Option Js)
  | none, field => .error (typeErrorReading field)
  | some j, field => .ok (j.get field)

/-- Observable steps of an execution: HTTP requests issued by the client
functions (a GET URL is recorded as its base and the appended id, the
source builds it by string concatenation), `wait` delays, and console
output. -/
inductive Event where
  | post (url : String) (body : List (String × Option Js))
  | get (base : String) (id : String)
  | delay (ms : Nat)
  | log (msg : String)

/-- Default URL of the create-invitation endpoint. -/
def inviteUrlDefault : String :=
  "http://<YOUR OCM IP OR DOMAIN>/v1/invitation-url?alias=trust"

/-- Default base URL of the connection-status endpoint. -/
def connectionsUrlDefault : String :=
  "http://<YOUR OCM IP OR DOMAIN>/v1/connections/"

/-- Default URL of the create-credential-offer endpoint. -/
def offerUrlDefault : String :=
  "http://<YOUR OCM IP OR DOMAIN>/v1/create-offer-credential"

/-- Default base URL of the credential-state endpoint. -/
def credentialUrlDefault : String :=
  "http://<YOUR OCM IP OR DOMAIN>/v1/credential/"

/-- Default credential definition id used by the orchestrator. -/
def credentialDefinitionIdDefault : String := "<YOUR CREDENTIAL DEFINITION ID>"

/-- The record returned by `createInvitation`: both fields are read off
the response envelope and may be `undefined`. -/
structure Invitation where
  invitationUrl : Option Js
  connectionId : Option Js

/-- Field extraction of `createInvitation`: evaluates
`response.data.invitationUrl` and `response.data.connection.id` in
source order. -/
def createInvitationResult (response : Js) : Except String Invitation := do
  let d ← jsAccess (some response) "data"
  let u ← jsAccess d "invitationUrl"
  let c ← jsAccess d "connection"
  let i ← jsAccess c "id"
  pure { invitationUrl := u, connectionId := i }

/-- `createInvitation`: one POST with the default empty body, then field
extraction from the response. -/
def createInvitation (response : Js) : List Event × Except String Invitation :=
  ([Event.post inviteUrlDefault []], createInvitationResult response)

/-- Field extraction of `getConnectionStatus`:
`response.data.records.status`. -/
def getConnectionStatusResult (response : Js) : Except String (Option Js) := do
  let d ← jsAccess (some response) "data"
  let r ← jsAccess d "records"
  jsAccess r "status"

/-- `getConnectionStatus`: one GET against the connections base URL with
the stringified connection id appended, then field extraction. -/
def getConnectionStatus (connectionId : Option Js) (response : Js) :
    List Event × Except String (Option Js) :=
  ([Event.get connectionsUrlDefault (jsValToString connectionId)],
   getConnectionStatusResult response)

/-- The POST body built by `createCredentialOffer`, field for field in
source order. -/
def offerBody (connectionId attributes credentialDefinitionId : Option Js) :
    List (String × Option Js) :=
  [("connectionId", connectionId),
   ("credentialDefinitionId", credentialDefinitionId),
   ("comment", some (Js.str "")),
   ("attributes", attributes),
   ("autoAcceptCredential", some (Js.str "always"))]

/-- Field extraction of `createCredentialOffer`: `response.data.id`. -/
def extractOfferId (response : Js) : Except String (Option Js) := do
  let d ← jsAccess (some response) "data"
  jsAccess d "id"

/-- `createCredentialOffer`: one POST carrying the offer body, then
extraction of `data.id` from the response. -/
def createCredentialOffer (connectionId attributes credentialDefinitionId : Option Js)
    (url : String) (response : Js) : List Event × Except String (Option Js) :=
  ([Event.post url (offerBody connectionId attributes credentialDefinitionId)],
   extractOfferId response)

/-- Field extraction of `getCredentialState`: `response.data.state`. -/
def getCredentialStateResult (response : Js) : Except String (Option Js) := do
  let d ← jsAccess (some response) "data"
  jsAccess d "state"

/-- `getCredentialState`: one GET against the credential base URL with
the stringified credential id appended, then field extraction. -/
def getCredentialState (credentialId : Option Js) (response : Js) :
    List Event × Except String (Option Js) :=
  ([Event.get credentialUrlDefault (jsValToString credentialId)],
   getCredentialStateResult response)

/-- Outcome of one polling loop under a fuel bound. -/
inductive LoopOutcome where
  | timeout
  | failed (e : String)
  | finished (last : Option Js)

/-- The connection-wait loop: each iteration waits 2500 ms, polls
`getConnectionStatus` once against the i-th service response, logs the
observed status, and exits exactly when the status compares
loosely equal to "trusted". The fuel bounds how many iterations are
simulated; `timeout` means the source loop would still be running. -/
def connLoop (responses : Nat → Js) (connectionId : Option Js) :
    Nat → Nat → List Event × LoopOutcome
  | _, 0 => ([], .timeout)
  | i, fuel + 1 =>
    let evs := [Event.delay 2500,
                Event.get connectionsUrlDefault (jsValToString connectionId)]
    match getConnectionStatusResult (responses i) with
    | .error e => (evs, .failed e)
    | .ok status =>
      if looseEqStr status "trusted" then
        (evs ++ [Event.log (jsValToString status)], .finished status)
      else
        let rest := connLoop responses connectionId (i + 1) fuel
        ((evs ++ [Event.log (jsValToString status)]) ++ rest.1, rest.2)

/-- The credential-wait loop: each iteration waits 2500 ms, polls
`getCredentialState` once against the i-th service response, logs the
observed state, and exits exactly when the state compares loosely equal
to "done". -/
def credLoop (responses : Nat → Js) (credentialId : Option Js) :
    Nat → Nat → List Event × LoopOutcome
  | _, 0 => ([], .timeout)
  | i, fuel + 1 =>
    let evs := [Event.delay 2500,
                Event.get credentialUrlDefault (jsValToString credentialId)]
    match getCredentialStateResult (responses i) with
    | .error e => (evs, .failed e)
    | .ok state =>
      if looseEqStr state "done" then
        (evs ++ [Event.log (jsValToString state)], .finished state)
      else
        let rest := credLoop responses credentialId (i + 1) fuel
        ((evs ++ [Event.log (jsValToString state)]) ++ rest.1, rest.2)

/-- The external service as seen by one run: the parsed response bodies
it answers with, indexed per poll for the two status endpoints. -/
structure Oracle where
  invitationResponse : Js
  connectionResponses : Nat → Js
  offerResponse : Js
  credentialResponses : Nat → Js

/-- Final outcome of one orchestrator run. -/
inductive FlowResult where
  | failed (e : String)
  | timeout
  | completed (credentialId : Option Js)

/-- The attribute array hard-coded in the orchestrator. -/
def testAttributes : Js :=
  Js.arr
    [Js.obj [("name", Js.str "user_id"),
             ("value", Js.str "testuser@merlot-education.eu")],
     Js.obj [("name", Js.str "course_name"), ("value", Js.str "Example Course")],
     Js.obj [("name", Js.str "grade"), ("value", Js.str "15/15 - passed")],
     Js.obj [("name", Js.str "variable_data"), ("value", Js.str "whatevs")]]

/-- The console message printed right after the invitation is created. -/
def qrMessage (inv : Invitation) : String :=
  "create a QR code from this and scan it with the PCM: " ++
    jsValToString inv.invitationUrl

/-- The orchestrator `tests`: create the invitation, print its URL, wait
5000 ms, run the connection-wait loop, create the credential offer, run
the credential-wait loop. An extraction error anywhere aborts the run at
that point with `failed`; the two fuels bound the two loops. -/
def tests (o : Oracle) (fuel₁ fuel₂ : Nat) : List Event × FlowResult :=
  let inv := createInvitation o.invitationResponse
  match inv.2 with
  | .error e => (inv.1, .failed e)
  | .ok invitationObject =>
    let evs₁ := inv.1 ++ [Event.log (qrMessage invitationObject), Event.delay 5000]
    let conn := connLoop o.connectionResponses invitationObject.connectionId 0 fuel₁
    match conn.2 with
    | .failed e => (evs₁ ++ conn.1, .failed e)
    | .timeout => (evs₁ ++ conn.1, .timeout)
    | .finished _ =>
      let offer := createCredentialOffer invitationObject.connectionId
        (some testAttributes) (some (Js.str credentialDefinitionIdDefault))
        offerUrlDefault o.offerResponse
      match offer.2 with
      | .error e => (evs₁ ++ conn.1 ++ offer.1, .failed e)
      | .ok credentialId =>
        let cred := credLoop o.credentialResponses credentialId 0 fuel₂
        match cred.2 with
        | .failed e => (evs₁ ++ conn.1 ++ offer.1 ++ cred.1, .failed e)
        | .timeout => (evs₁ ++ conn.1 ++ offer.1 ++ cred.1, .timeout)
        | .finished _ =>
          (evs₁ ++ conn.1 ++ offer.1 ++ cred.1, .completed credentialId)

/-- A well-formed connection-status response wrapping one status string,
as returned by the service: data.records.status. -/
def mkConnectionResponse (s : String) : Js :=
  Js.obj [("data", Js.obj [("records", Js.obj [("status", Js.str s)])])]

/-- A well-formed credential-state response wrapping one state string,
as returned by the service: data.state. -/
def mkCredentialResponse (s : String) : Js :=
  Js.obj [("data", Js.obj [("state", Js.str s)])]

/-- Does the event issue a GET request. -/
def isGetE : Event → Bool
  | .get _ _ => true
  | _ => false

/-- Does the event issue a POST request. -/
def isPostE : Event → Bool
  | .post _ _ => true
  | _ => false

/-- Does the event issue any HTTP request. -/
def isRequestE (e : Event) : Bool := isPostE e || isGetE e

/-- Is the event a delay of any length. -/
def isDelayE : Event → Bool
  | .delay _ => true
  | _ => false

/-- Is the event the 2500 ms inter-poll delay. -/
def isDelay2500E : Event → Bool
  | .delay ms => ms == 2500
  | _ => false

/-- Is the event the 5000 ms grace delay. -/
def isDelay5000E : Event → Bool
  | .delay ms => ms == 5000
  | _ => false

/-- Is the event a log of an observed status equal to "trusted". -/
def isTrustedLogE : Event → Bool
  | .log m => m == "trusted"
  | _ => false

/-- Is the event the POST that creates the credential offer (identified
by its endpoint). -/
def isOfferPostE : Event → Bool
  | .post u _ => u == offerUrlDefault
  | _ => false

/-- Is the event a GET polling the credential-state endpoint. -/
def isCredGetE : Event → Bool
  | .get base _ => base == credentialUrlDefault
  | _ => false

/-- Number of GET/poll requests in a trace. -/
def countGets (tr : List Event) : Nat := (tr.filter isGetE).length

/-- Number of delay steps in a trace. -/
def countDelays (tr : List Event) : Nat := (tr.filter isDelayE).length

/-- In the trace `tr`, every occurrence of a `p`-event is strictly
preceded by a `q`-event: every prefix of `tr` containing a `p`-event
already contains a `q`-event. -/
def PrecededBy (q p : Event → Bool) (tr : List Event) : Prop :=
  ∀ a b, tr = a ++ b → a.any p = true → a.any q = true

/-- The service of the end-to-end scenario: invitation for "conn-1" at
"https://wallet.example/inv/abc", connection statuses pending, pending,
trusted, offer id "cred-1", credential states offer-sent, done. -/
def oEndToEnd : Oracle where
  invitationResponse :=
    Js.obj [("data",
      Js.obj [("invitationUrl", Js.str "https://wallet.example/inv/abc"),
              ("connection", Js.obj [("id", Js.str "conn-1")])])]
  connectionResponses := fun i =>
    mkConnectionResponse (List.getD ["pending", "pending", "trusted"] i "pending")
  offerResponse := Js.obj [("data", Js.obj [("id", Js.str "cred-1")])]
  credentialResponses := fun i =>
    mkCredentialResponse (List.getD ["offer-sent", "done"] i "offer-sent")

/-- A service whose invitation response carries no data field, so the
very first extraction throws. -/
def oInvitationMalformed : Oracle where
  invitationResponse := Js.obj [("ok", Js.str "true")]
  connectionResponses := fun _ => mkConnectionResponse "pending"
  offerResponse := Js.obj []
  credentialResponses := fun _ => mkCredentialResponse "offer-sent"

/-- An offer-creation response whose data object is present but has no
id field. -/
def offerResponseNoId : Js :=
  Js.obj [("data", Js.obj [("connectionId", Js.str "conn-1"),
                           ("state", Js.str "offer-sent")])]

/-- The three events the orchestrator emits before the first loop:
invitation POST, console output of the invitation URL, 5000 ms grace
delay. -/
def introEvents (inv : Invitation) : List Event :=
  [Event.post inviteUrlDefault [], Event.log (qrMessage inv), Event.delay 5000]

/-- The POST event issued by the offer step of the orchestrator. -/
def offerPostEvent (inv : Invitation) : Event :=
  Event.post offerUrlDefault (offerBody inv.connectionId (some testAttributes)
    (some (Js.str credentialDefinitionIdDefault)))

/-- The connection-status sequence pending, pending, trusted used by
the spec example. -/
def c1Statuses : Nat → String := fun i => List.getD ["pending", "pending", "trusted"] i "pending"

/-- A service that establishes the connection at once but answers
offer creation with a data object lacking the id field. -/
def oOfferNoId : Oracle where
  invitationResponse :=
    Js.obj [("data", Js.obj [("invitationUrl", Js.str "https://wallet.example/inv/abc"),
                             ("connection", Js.obj [("id", Js.str "conn-1")])])]
  connectionResponses := fun _ => mkConnectionResponse "trusted"
  offerResponse := offerResponseNoId
  credentialResponses := fun _ => mkCredentialResponse "offer-sent"

/-- The run failed with the error e of the exact operation that threw,
and stopped at that operation's own request: the trace ends with the
failing request, so no further request is issued after the failure; and
in the loop cases every earlier poll hit a fresh response index and
succeeded with a non-terminal value, so the k + 1 polls are one poll per
response, never a retry of a failed one. -/
def StopsAtFailingRequest (o : Oracle) (f1 f2 : Nat) (e : String) : Prop :=
  (createInvitationResult o.invitationResponse = Except.error e ∧
     (tests o f1 f2).1 = [Event.post inviteUrlDefault []])
  ∨ (∃ inv k pre,
       createInvitationResult o.invitationResponse = Except.ok inv ∧
       getConnectionStatusResult (o.connectionResponses k) = Except.error e ∧
       (∀ j, j < k → ∃ st,
           getConnectionStatusResult (o.connectionResponses j) = Except.ok st ∧
           looseEqStr st "trusted" = false) ∧
       (tests o f1 f2).1 = pre ++
         [Event.delay 2500,
          Event.get connectionsUrlDefault (jsValToString inv.connectionId)] ∧
       countGets (tests o f1 f2).1 = k + 1)
  ∨ (∃ inv st,
       createInvitationResult o.invitationResponse = Except.ok inv ∧
       (connLoop o.connectionResponses inv.connectionId 0 f1).2 =
         LoopOutcome.finished st ∧
       extractOfferId o.offerResponse = Except.error e ∧
       (tests o f1 f2).1 = introEvents inv ++
         (connLoop o.connectionResponses inv.connectionId 0 f1).1 ++
         [offerPostEvent inv])
  ∨ (∃ inv st cid k pre,
       createInvitationResult o.invitationResponse = Except.ok inv ∧
       (connLoop o.connectionResponses inv.connectionId 0 f1).2 =
         LoopOutcome.finished st ∧
       extractOfferId o.offerResponse = Except.ok cid ∧
       getCredentialStateResult (o.credentialResponses k) = Except.error e ∧
       (∀ j, j < k → ∃ st₂,
           getCredentialStateResult (o.credentialResponses j) = Except.ok st₂ ∧
           looseEqStr st₂ "done" = false) ∧
       (tests o f1 f2).1 = pre ++
         [Event.delay 2500,
          Event.get credentialUrlDefault (jsValToString cid)] ∧
       countGets (credLoop o.credentialResponses cid 0 f2).1 = k + 1)

/-- Coercing a value that compares loosely equal to a string yields that
string. -/
theorem jsValToString_of_looseEq {v : Option Js} {s : String}
    (h : looseEqStr v s = true) : jsValToString v = s := by
  cases v with
  | none => simp [looseEqStr] at h
  | some j => simpa [looseEqStr, jsValToString] using h

/-- Unfolding lemma for a positive-fuel step of the connection loop. -/
theorem connLoop_succ (r : Nat → Js) (c : Option Js) (i fuel : Nat) :
    connLoop r c i (fuel + 1) =
      let evs := [Event.delay 2500,
                  Event.get connectionsUrlDefault (jsValToString c)]
      match getConnectionStatusResult (r i) with
      | .error e => (evs, .failed e)
      | .ok status =>
        if looseEqStr status "trusted" then
          (evs ++ [Event.log (jsValToString status)], .finished status)
        else
          let rest := connLoop r c (i + 1) fuel
          ((evs ++ [Event.log (jsValToString status)]) ++ rest.1, rest.2) := by
  simp [connLoop]

/-- Every event of the connection loop is rejected by any predicate that
rejects the inter-poll delay, the connection GETs and all log events. -/
theorem connLoop_any_false (r : Nat → Js) (c : Option Js)
    (p : Event → Bool)
    (hd : p (Event.delay 2500) = false)
    (hg : ∀ s, p (Event.get connectionsUrlDefault s) = false)
    (hl : ∀ m, p (Event.log m) = false) :
    ∀ fuel i, (connLoop r c i fuel).1.any p = false := by
  intro fuel
  induction fuel with
  | zero => intro i; simp [connLoop]
  | succ f ih =>
    intro i
    rw [connLoop_succ]
    cases h : getConnectionStatusResult (r i) with
    | error e => simp [hd, hg]
    | ok status =>
      by_cases ht : looseEqStr status "trusted" = true
      · simp [ht, hd, hg, hl]
      · simp only [Bool.not_eq_true] at ht
        simp [ht, hd, hg, hl, ih (i + 1)]

/-- The delays of a connection-loop trace are exactly one 2500 ms delay
per poll. -/
theorem connLoop_delays_polls (r : Nat → Js) (c : Option Js) :
    ∀ fuel i, ∃ n,
      (connLoop r c i fuel).1.filter isDelayE = List.replicate n (Event.delay 2500)
      ∧ countGets (connLoop r c i fuel).1 = n := by
  intro fuel
  induction fuel with
  | zero => intro i; exact ⟨0, by simp [connLoop, countGets]⟩
  | succ f ih =>
    intro i
    rw [connLoop_succ]
    cases h : getConnectionStatusResult (r i) with
    | error e => exact ⟨1, by simp [countGets, isDelayE, isGetE, List.filter]⟩
    | ok status =>
      by_cases ht : looseEqStr status "trusted" = true
      · exact ⟨1, by simp [ht, countGets, isDelayE, isGetE, List.filter]⟩
      · obtain ⟨n, hf, hg⟩ := ih (i + 1)
        refine ⟨n + 1, ?_, ?_⟩
        · simp only [Bool.not_eq_true] at ht
          simp [ht, List.filter_append, hf, isDelayE, List.filter,
                List.replicate_succ]
        · simp only [Bool.not_eq_true] at ht
          simp [ht, countGets, List.filter_append, isDelayE, isGetE,
                List.filter] at hg ⊢
          omega

/-- A failed connection loop: the error is the extraction error of the
k-th connection response, each of the k earlier polls hit its own
response index and succeeded with a non-"trusted" status, the trace
ends with the delay and the GET of the failing poll, and the loop
issued exactly k + 1 polls (one per response index, none repeated). -/
theorem connLoop_failed_full (r : Nat → Js) (c : Option Js) :
    ∀ fuel i e, (connLoop r c i fuel).2 = .failed e →
      ∃ k pre,
        getConnectionStatusResult (r (i + k)) = Except.error e ∧
        (∀ j, j < k → ∃ st, getConnectionStatusResult (r (i + j)) = Except.ok st ∧
            looseEqStr st "trusted" = false) ∧
        (connLoop r c i fuel).1 = pre ++
          [Event.delay 2500, Event.get connectionsUrlDefault (jsValToString c)] ∧
        countGets (connLoop r c i fuel).1 = k + 1 := by
  intro fuel
  induction fuel with
  | zero => intro i e h; simp [connLoop] at h
  | succ f ih =>
    intro i e h
    rw [connLoop_succ] at h ⊢
    cases hres : getConnectionStatusResult (r i) with
    | error e' =>
      simp only [hres] at h
      have he : e' = e := by
        cases h
        rfl
      subst he
      refine ⟨0, [], by simpa using hres, fun j hj => absurd hj (by omega), ?_, ?_⟩
      · simp [hres]
      · simp [hres, countGets, isGetE, List.filter]
    | ok status =>
      by_cases ht : looseEqStr status "trusted" = true
      · simp [hres, ht] at h
      · simp only [Bool.not_eq_true] at ht
        simp only [hres, ht] at h
        simp only [Bool.false_eq_true, if_false] at h
        obtain ⟨k, pre, hk, hprev, htr, hcount⟩ := ih (i + 1) e h
        refine ⟨k + 1, [Event.delay 2500, Event.get connectionsUrlDefault (jsValToString c),
          Event.log (jsValToString status)] ++ pre, ?_, ?_, ?_, ?_⟩
        · have heq : i + (k + 1) = i + 1 + k := by omega
          rw [heq]
          exact hk
        · intro j hj
          cases j with
          | zero => exact ⟨status, by simpa using hres, ht⟩
          | succ j' =>
            obtain ⟨st, hst, hnt⟩ := hprev j' (by omega)
            refine ⟨st, ?_, hnt⟩
            have heq : i + (j' + 1) = i + 1 + j' := by omega
            rw [heq]
            exact hst
        · simp [hres, ht, htr]
        · simp only [countGets, List.filter_append] at hcount
          simp [hres, ht, countGets, List.filter_append, isGetE, List.filter]
          omega

/-- A finished connection loop ends by logging "trusted". -/
theorem connLoop_finished_ends (r : Nat → Js) (c : Option Js) :
    ∀ fuel i st, (connLoop r c i fuel).2 = .finished st →
      ∃ pre, (connLoop r c i fuel).1 = pre ++ [Event.log "trusted"] := by
  intro fuel
  induction fuel with
  | zero => intro i st h; simp [connLoop] at h
  | succ f ih =>
    intro i st h
    rw [connLoop_succ] at h ⊢
    cases hres : getConnectionStatusResult (r i) with
    | error e' => simp [hres] at h
    | ok status =>
      by_cases ht : looseEqStr status "trusted" = true
      · refine ⟨[Event.delay 2500, Event.get connectionsUrlDefault (jsValToString c)], ?_⟩
        simp [hres, ht, jsValToString_of_looseEq ht]
      · simp only [Bool.not_eq_true] at ht
        simp only [hres, ht] at h
        simp only [Bool.false_eq_true, if_false] at h
        obtain ⟨pre, hp⟩ := ih (i + 1) st h
        refine ⟨[Event.delay 2500, Event.get connectionsUrlDefault (jsValToString c),
          Event.log (jsValToString status)] ++ pre, ?_⟩
        simp [hres, ht, hp]

/-- With positive fuel the connection loop starts by delaying and
issuing its first poll. -/
theorem connLoop_head (r : Nat → Js) (c : Option Js) (i fuel : Nat) :
    ∃ tail, (connLoop r c i (fuel + 1)).1 =
      Event.delay 2500 :: Event.get connectionsUrlDefault (jsValToString c) :: tail := by
  rw [connLoop_succ]
  cases hres : getConnectionStatusResult (r i) with
  | error e => exact ⟨[], by simp⟩
  | ok status =>
    by_cases ht : looseEqStr status "trusted" = true
    · exact ⟨[Event.log (jsValToString status)], by simp [ht]⟩
    · simp only [Bool.not_eq_true] at ht
      exact ⟨Event.log (jsValToString status) :: (connLoop r c (i + 1) fuel).1,
        by simp [ht]⟩

/-- Unfolding lemma for a positive-fuel step of the credential loop. -/
theorem credLoop_succ (r : Nat → Js) (c : Option Js) (i fuel : Nat) :
    credLoop r c i (fuel + 1) =
      let evs := [Event.delay 2500,
                  Event.get credentialUrlDefault (jsValToString c)]
      match getCredentialStateResult (r i) with
      | .error e => (evs, .failed e)
      | .ok state =>
        if looseEqStr state "done" then
          (evs ++ [Event.log (jsValToString state)], .finished state)
        else
          let rest := credLoop r c (i + 1) fuel
          ((evs ++ [Event.log (jsValToString state)]) ++ rest.1, rest.2) := by
  simp [credLoop]

/-- Every event of the credential loop is rejected by any predicate that
rejects the inter-poll delay, the credential GETs and all log events. -/
theorem credLoop_any_false (r : Nat → Js) (c : Option Js)
    (p : Event → Bool)
    (hd : p (Event.delay 2500) = false)
    (hg : ∀ s, p (Event.get credentialUrlDefault s) = false)
    (hl : ∀ m, p (Event.log m) = false) :
    ∀ fuel i, (credLoop r c i fuel).1.any p = false := by
  intro fuel
  induction fuel with
  | zero => intro i; simp [credLoop]
  | succ f ih =>
    intro i
    rw [credLoop_succ]
    cases h : getCredentialStateResult (r i) with
    | error e => simp [hd, hg]
    | ok state =>
      by_cases ht : looseEqStr state "done" = true
      · simp [ht, hd, hg, hl]
      · simp only [Bool.not_eq_true] at ht
        simp [ht, hd, hg, hl, ih (i + 1)]

/-- The delays of a credential-loop trace are exactly one 2500 ms delay
per poll. -/
theorem credLoop_delays_polls (r : Nat → Js) (c : Option Js) :
    ∀ fuel i, ∃ n,
      (credLoop r c i fuel).1.filter isDelayE = List.replicate n (Event.delay 2500)
      ∧ countGets (credLoop r c i fuel).1 = n := by
  intro fuel
  induction fuel with
  | zero => intro i; exact ⟨0, by simp [credLoop, countGets]⟩
  | succ f ih =>
    intro i
    rw [credLoop_succ]
    cases h : getCredentialStateResult (r i) with
    | error e => exact ⟨1, by simp [countGets, isDelayE, isGetE, List.filter]⟩
    | ok state =>
      by_cases ht : looseEqStr state "done" = true
      · exact ⟨1, by simp [ht, countGets, isDelayE, isGetE, List.filter]⟩
      · obtain ⟨n, hf, hg⟩ := ih (i + 1)
        refine ⟨n + 1, ?_, ?_⟩
        · simp only [Bool.not_eq_true] at ht
          simp [ht, List.filter_append, hf, isDelayE, List.filter,
                List.replicate_succ]
        · simp only [Bool.not_eq_true] at ht
          simp [ht, countGets, List.filter_append, isDelayE, isGetE,
                List.filter] at hg ⊢
          omega

/-- A failed credential loop: the error is the extraction error of the
k-th credential response, each of the k earlier polls hit its own
response index and succeeded with a non-"done" state, the trace ends
with the delay and the GET of the failing poll, and the loop issued
exactly k + 1 polls (one per response index, none repeated). -/
theorem credLoop_failed_full (r : Nat → Js) (c : Option Js) :
    ∀ fuel i e, (credLoop r c i fuel).2 = .failed e →
      ∃ k pre,
        getCredentialStateResult (r (i + k)) = Except.error e ∧
        (∀ j, j < k → ∃ st, getCredentialStateResult (r (i + j)) = Except.ok st ∧
            looseEqStr st "done" = false) ∧
        (credLoop r c i fuel).1 = pre ++
          [Event.delay 2500, Event.get credentialUrlDefault (jsValToString c)] ∧
        countGets (credLoop r c i fuel).1 = k + 1 := by
  intro fuel
  induction fuel with
  | zero => intro i e h; simp [credLoop] at h
  | succ f ih =>
    intro i e h
    rw [credLoop_succ] at h ⊢
    cases hres : getCredentialStateResult (r i) with
    | error e' =>
      simp only [hres] at h
      have he : e' = e := by
        cases h
        rfl
      subst he
      refine ⟨0, [], by simpa using hres, fun j hj => absurd hj (by omega), ?_, ?_⟩
      · simp [hres]
      · simp [hres, countGets, isGetE, List.filter]
    | ok state =>
      by_cases ht : looseEqStr state "done" = true
      · simp [hres, ht] at h
      · simp only [Bool.not_eq_true] at ht
        simp only [hres, ht] at h
        simp only [Bool.false_eq_true, if_false] at h
        obtain ⟨k, pre, hk, hprev, htr, hcount⟩ := ih (i + 1) e h
        refine ⟨k + 1, [Event.delay 2500, Event.get credentialUrlDefault (jsValToString c),
          Event.log (jsValToString state)] ++ pre, ?_, ?_, ?_, ?_⟩
        · have heq : i + (k + 1) = i + 1 + k := by omega
          rw [heq]
          exact hk
        · intro j hj
          cases j with
          | zero => exact ⟨state, by simpa using hres, ht⟩
          | succ j' =>
            obtain ⟨st, hst, hnt⟩ := hprev j' (by omega)
            refine ⟨st, ?_, hnt⟩
            have heq : i + (j' + 1) = i + 1 + j' := by omega
            rw [heq]
            exact hst
        · simp [hres, ht, htr]
        · simp only [countGets, List.filter_append] at hcount
          simp [hres, ht, countGets, List.filter_append, isGetE, List.filter]
          omega

/-- A finished credential loop ends with its last full iteration: the
delay, the poll, and the log of "done". -/
theorem credLoop_finished_shape (r : Nat → Js) (c : Option Js) :
    ∀ fuel i st, (credLoop r c i fuel).2 = .finished st →
      ∃ pre, (credLoop r c i fuel).1 = pre ++
        [Event.delay 2500, Event.get credentialUrlDefault (jsValToString c),
         Event.log "done"] := by
  intro fuel
  induction fuel with
  | zero => intro i st h; simp [credLoop] at h
  | succ f ih =>
    intro i st h
    rw [credLoop_succ] at h ⊢
    cases hres : getCredentialStateResult (r i) with
    | error e' => simp [hres] at h
    | ok state =>
      by_cases ht : looseEqStr state "done" = true
      · refine ⟨[], ?_⟩
        simp [hres, ht, jsValToString_of_looseEq ht]
      · simp only [Bool.not_eq_true] at ht
        simp only [hres, ht] at h
        simp only [Bool.false_eq_true, if_false] at h
        obtain ⟨pre, hp⟩ := ih (i + 1) st h
        refine ⟨[Event.delay 2500, Event.get credentialUrlDefault (jsValToString c),
          Event.log (jsValToString state)] ++ pre, ?_⟩
        simp [hres, ht, hp]

/-- If the trace contains no `p`-event at all, every `p`-event is
vacuously preceded by a `q`-event. -/
theorem precededBy_of_not_any {p : Event → Bool} (q : Event → Bool)
    {tr : List Event} (hp : tr.any p = false) : PrecededBy q p tr := by
  intro a b hab hpa
  rw [hab, List.any_append] at hp
  simp only [Bool.or_eq_false_iff] at hp
  rw [hp.1] at hpa
  cases hpa

/-- If the trace splits as `x ++ y` where `x` contains a `q`-event and
no `p`-event, then every `p`-event is preceded by a `q`-event. -/
theorem precededBy_split {p q : Event → Bool} {x y : List Event}
    (hq : x.any q = true) (hp : x.any p = false) : PrecededBy q p (x ++ y) := by
  intro a b hab hpa
  rcases List.append_eq_append_iff.mp hab.symm with ⟨t, hx, _⟩ | ⟨t, hxa, _⟩
  · subst hx
    rw [List.any_append] at hp
    simp only [Bool.or_eq_false_iff] at hp
    rw [hp.1] at hpa
    cases hpa
  · subst hxa
    rw [List.any_append, hq, Bool.true_or]

/-- Extraction of a well-formed connection-status response. -/
theorem getConnectionStatusResult_mk (s : String) :
    getConnectionStatusResult (mkConnectionResponse s) = .ok (some (Js.str s)) := rfl

/-- Extraction of a well-formed credential-state response. -/
theorem getCredentialStateResult_mk (s : String) :
    getCredentialStateResult (mkCredentialResponse s) = .ok (some (Js.str s)) := rfl

/-- Loose equality of a wrapped status string is string equality. -/
theorem looseEqStr_str (s t : String) :
    looseEqStr (some (Js.str s)) t = (s == t) := rfl

/-- Core of the connection-loop correctness: if the first "trusted"
status sits at position n of the status sequence and the fuel covers it,
the loop finishes on "trusted" after exactly n + 1 polls. -/
theorem connLoop_first_trusted (statuses : Nat → String) (c : Option Js) :
    ∀ n fuel i, n < fuel →
      (∀ k, k < n → statuses (i + k) ≠ "trusted") →
      statuses (i + n) = "trusted" →
      (connLoop (fun j => mkConnectionResponse (statuses j)) c i fuel).2 =
        .finished (some (Js.str "trusted"))
      ∧ countGets (connLoop (fun j => mkConnectionResponse (statuses j)) c i fuel).1 = n + 1 := by
  intro n
  induction n with
  | zero =>
    intro fuel i hfuel _ hn
    cases fuel with
    | zero => omega
    | succ f =>
      rw [connLoop_succ]
      simp only [getConnectionStatusResult_mk]
      have hs : statuses i = "trusted" := by simpa using hn
      simp [looseEqStr_str, hs, countGets, isGetE, List.filter]
  | succ n ih =>
    intro fuel i hfuel hlt hn
    cases fuel with
    | zero => omega
    | succ f =>
      rw [connLoop_succ]
      simp only [getConnectionStatusResult_mk]
      have hs : statuses i ≠ "trusted" := by
        have := hlt 0 (by omega)
        simpa using this
      have hrec := ih f (i + 1) (by omega)
        (fun k hk => by
          have := hlt (k + 1) (by omega)
          have heq : i + (k + 1) = i + 1 + k := by omega
          rwa [heq] at this)
        (by
          have heq : i + (n + 1) = i + 1 + n := by omega
          rwa [heq] at hn)
      have hsb : (statuses i == "trusted") = false := beq_eq_false_iff_ne.mpr hs
      rw [looseEqStr_str, hsb]
      simp only [Bool.false_eq_true, if_false]
      refine ⟨hrec.1, ?_⟩
      have hcount := hrec.2
      simp only [countGets, List.filter_append, List.length_append] at hcount ⊢
      simp [isGetE, List.filter]
      omega

/-- Core of the credential-loop non-termination: when no state of the
sequence is "done", every fuel value is exhausted after performing one
poll per fuel unit. -/
theorem credLoop_never_done (statuses : Nat → String) (c : Option Js)
    (h : ∀ j, statuses j ≠ "done") :
    ∀ fuel i,
      (credLoop (fun j => mkCredentialResponse (statuses j)) c i fuel).2 = .timeout
      ∧ countGets (credLoop (fun j => mkCredentialResponse (statuses j)) c i fuel).1 = fuel := by
  intro fuel
  induction fuel with
  | zero => intro i; simp [credLoop, countGets]
  | succ f ih =>
    intro i
    rw [credLoop_succ]
    simp only [getCredentialStateResult_mk]
    have hsb : (statuses i == "done") = false := beq_eq_false_iff_ne.mpr (h i)
    rw [looseEqStr_str, hsb]
    simp only [Bool.false_eq_true, if_false]
    refine ⟨(ih (i + 1)).1, ?_⟩
    have hcount := (ih (i + 1)).2
    simp only [countGets, List.filter_append, List.length_append] at hcount ⊢
    simp [isGetE, List.filter]
    omega

/-- Exhaustive case analysis of one orchestrator run: the invitation
extraction either fails at once, or each following stage either aborts
the run with its own trace suffix or passes control to the next. -/
theorem tests_shape (o : Oracle) (f1 f2 : Nat) :
    (∃ e, createInvitationResult o.invitationResponse = .error e ∧
       tests o f1 f2 = ([Event.post inviteUrlDefault []], .failed e)) ∨
    ∃ inv, createInvitationResult o.invitationResponse = .ok inv ∧
      ((∃ e, (connLoop o.connectionResponses inv.connectionId 0 f1).2 = .failed e ∧
          tests o f1 f2 = (introEvents inv ++
            (connLoop o.connectionResponses inv.connectionId 0 f1).1, .failed e)) ∨
       ((connLoop o.connectionResponses inv.connectionId 0 f1).2 = .timeout ∧
          tests o f1 f2 = (introEvents inv ++
            (connLoop o.connectionResponses inv.connectionId 0 f1).1, .timeout)) ∨
       ∃ st, (connLoop o.connectionResponses inv.connectionId 0 f1).2 = .finished st ∧
         ((∃ e, extractOfferId o.offerResponse = .error e ∧
             tests o f1 f2 = (introEvents inv ++
               (connLoop o.connectionResponses inv.connectionId 0 f1).1 ++
               [offerPostEvent inv], .failed e)) ∨
          ∃ cid, extractOfferId o.offerResponse = .ok cid ∧
            ((∃ e, (credLoop o.credentialResponses cid 0 f2).2 = .failed e ∧
                tests o f1 f2 = (introEvents inv ++
                  (connLoop o.connectionResponses inv.connectionId 0 f1).1 ++
                  [offerPostEvent inv] ++
                  (credLoop o.credentialResponses cid 0 f2).1, .failed e)) ∨
             ((credLoop o.credentialResponses cid 0 f2).2 = .timeout ∧
                tests o f1 f2 = (introEvents inv ++
                  (connLoop o.connectionResponses inv.connectionId 0 f1).1 ++
                  [offerPostEvent inv] ++
                  (credLoop o.credentialResponses cid 0 f2).1, .timeout)) ∨
             ∃ st₂, (credLoop o.credentialResponses cid 0 f2).2 = .finished st₂ ∧
               tests o f1 f2 = (introEvents inv ++
                 (connLoop o.connectionResponses inv.connectionId 0 f1).1 ++
                 [offerPostEvent inv] ++
                 (credLoop o.credentialResponses cid 0 f2).1, .completed cid)))) := by
  cases hinv : createInvitationResult o.invitationResponse with
  | error e =>
    left
    exact ⟨e, rfl, by simp [tests, createInvitation, hinv]⟩
  | ok inv =>
    right
    refine ⟨inv, rfl, ?_⟩
    cases hconn : (connLoop o.connectionResponses inv.connectionId 0 f1).2 with
    | failed e =>
      left
      exact ⟨e, rfl, by simp [tests, createInvitation, hinv, hconn, introEvents]⟩
    | timeout =>
      right; left
      exact ⟨rfl, by simp [tests, createInvitation, hinv, hconn, introEvents]⟩
    | finished st =>
      right; right
      refine ⟨st, rfl, ?_⟩
      cases hoff : extractOfferId o.offerResponse with
      | error e =>
        left
        exact ⟨e, rfl, by
          simp [tests, createInvitation, createCredentialOffer, hinv, hconn, hoff,
                introEvents, offerPostEvent]⟩
      | ok cid =>
        right
        refine ⟨cid, rfl, ?_⟩
        cases hcred : (credLoop o.credentialResponses cid 0 f2).2 with
        | failed e =>
          left
          exact ⟨e, rfl, by
            simp [tests, createInvitation, createCredentialOffer, hinv, hconn, hoff,
                  hcred, introEvents, offerPostEvent]⟩
        | timeout =>
          right; left
          exact ⟨rfl, by
            simp [tests, createInvitation, createCredentialOffer, hinv, hconn, hoff,
                  hcred, introEvents, offerPostEvent]⟩
        | finished st₂ =>
          right; right
          exact ⟨st₂, rfl, by
            simp [tests, createInvitation, createCredentialOffer, hinv, hconn, hoff,
                  hcred, introEvents, offerPostEvent]⟩

/-- The pre-loop events contain no offer POST. -/
theorem introEvents_not_offer (inv : Invitation) :
    (introEvents inv).any isOfferPostE = false := by
  simp [introEvents, isOfferPostE]
  decide

/-- The pre-loop events contain no GET. -/
theorem introEvents_not_get (inv : Invitation) :
    (introEvents inv).any isGetE = false := by
  simp [introEvents, isGetE]

/-- The pre-loop events contain no credential-state GET. -/
theorem introEvents_not_credGet (inv : Invitation) :
    (introEvents inv).any isCredGetE = false := by
  simp [introEvents, isCredGetE]

/-- The pre-loop events contain the 5000 ms grace delay. -/
theorem introEvents_has_delay5000 (inv : Invitation) :
    (introEvents inv).any isDelay5000E = true := by
  simp [introEvents, isDelay5000E]

/-- The connection loop issues no offer POST. -/
theorem connLoop_not_offer (r : Nat → Js) (c : Option Js) (fuel i : Nat) :
    (connLoop r c i fuel).1.any isOfferPostE = false :=
  connLoop_any_false r c isOfferPostE rfl (fun _ => rfl) (fun _ => rfl) fuel i

/-- The connection loop polls only the connections endpoint, never the
credential endpoint. -/
theorem connLoop_not_credGet (r : Nat → Js) (c : Option Js) (fuel i : Nat) :
    (connLoop r c i fuel).1.any isCredGetE = false :=
  connLoop_any_false r c isCredGetE rfl (fun _ => by simp [isCredGetE]; decide)
    (fun _ => rfl) fuel i

/-- The credential loop issues no offer POST. -/
theorem credLoop_not_offer (r : Nat → Js) (c : Option Js) (fuel i : Nat) :
    (credLoop r c i fuel).1.any isOfferPostE = false :=
  credLoop_any_false r c isOfferPostE rfl (fun _ => rfl) (fun _ => rfl) fuel i

/-- A finished connection loop has logged "trusted". -/
theorem connLoop_finished_any_trusted (r : Nat → Js) (c : Option Js)
    (fuel i : Nat) (st : Option Js)
    (h : (connLoop r c i fuel).2 = .finished st) :
    (connLoop r c i fuel).1.any isTrustedLogE = true := by
  obtain ⟨pre, hp⟩ := connLoop_finished_ends r c fuel i st h
  rw [hp, List.any_append]
  simp [isTrustedLogE]

/-- Claim C1, counterexample: on the connection-status sequence pending,
pending, trusted the loop finishes on "trusted" with 3 polls, but it
performs 3 delays, not the 2 the claim states, because each poll
(including the first) is preceded by its own delay. -/
theorem claim_C1_counterexample :
    (connLoop (fun i => mkConnectionResponse (c1Statuses i)) (some (Js.str "conn-1")) 0 3).2
      = LoopOutcome.finished (some (Js.str "trusted"))
    ∧ countGets (connLoop (fun i => mkConnectionResponse (c1Statuses i)) (some (Js.str "conn-1")) 0 3).1 = 3
    ∧ countDelays (connLoop (fun i => mkConnectionResponse (c1Statuses i)) (some (Js.str "conn-1")) 0 3).1 = 3
    ∧ countDelays (connLoop (fun i => mkConnectionResponse (c1Statuses i)) (some (Js.str "conn-1")) 0 3).1 ≠ 2 := by
  refine ⟨rfl, rfl, rfl, by decide⟩

/-- Claim C2: with the service answering invitation creation with the
invitation URL and connection id "conn-1", connection statuses pending,
pending, trusted, offer creation with id "cred-1" and credential states
offer-sent, done, the orchestrator completes with credentialId "cred-1"
and its request trace is exactly: the invitation POST, 3 connection
polls, the offer POST, 2 credential polls, in that order with no
interleaving. -/
theorem claim_C2 :
    (tests oEndToEnd 10 10).2 = FlowResult.completed (some (Js.str "cred-1"))
    ∧ (tests oEndToEnd 10 10).1.filter isRequestE =
      [Event.post inviteUrlDefault [],
       Event.get connectionsUrlDefault "conn-1",
       Event.get connectionsUrlDefault "conn-1",
       Event.get connectionsUrlDefault "conn-1",
       Event.post offerUrlDefault (offerBody (some (Js.str "conn-1")) (some testAttributes)
         (some (Js.str credentialDefinitionIdDefault))),
       Event.get credentialUrlDefault "cred-1",
       Event.get credentialUrlDefault "cred-1"] := by
  refine ⟨rfl, rfl⟩

/-- Claim C7, counterexample: on an offer response whose data object
exists but has no id field, createCredentialOffer does NOT fail: it
returns undefined (Except.ok none). The flow then keeps running and
polls the credential endpoint with the literal id "undefined". -/
theorem claim_C7_counterexample :
    extractOfferId offerResponseNoId = Except.ok none
    ∧ (tests oOfferNoId 2 1).2 = FlowResult.timeout
    ∧ (tests oOfferNoId 2 1).1.filter isCredGetE = [Event.get credentialUrlDefault "undefined"] := by
  refine ⟨rfl, rfl, rfl⟩

/-- Claim C1 (amended): for every connection-status response sequence
whose first "trusted" is at position n (and fuel covering it), the
connection-wait loop terminates with last observed status exactly
"trusted", performing one poll per value up to and including the first
"trusted" (n + 1 polls) and one delay per poll (n + 1 delays); in
particular the sequence pending, pending, trusted gives 3 polls and 3
delays. -/
theorem claim_C1_amended (statuses : Nat → String) (connectionId : Option Js)
    (n fuel : Nat) (hfuel : n < fuel)
    (hbefore : ∀ k, k < n → statuses k ≠ "trusted")
    (hat : statuses n = "trusted") :
    (connLoop (fun j => mkConnectionResponse (statuses j)) connectionId 0 fuel).2 =
      LoopOutcome.finished (some (Js.str "trusted"))
    ∧ countGets (connLoop (fun j => mkConnectionResponse (statuses j)) connectionId 0 fuel).1 = n + 1
    ∧ countDelays (connLoop (fun j => mkConnectionResponse (statuses j)) connectionId 0 fuel).1 = n + 1 := by
  have h := connLoop_first_trusted statuses connectionId n fuel 0 hfuel
    (fun k hk => by simpa using hbefore k hk) (by simpa using hat)
  obtain ⟨m, hf, hg⟩ :=
    connLoop_delays_polls (fun j => mkConnectionResponse (statuses j)) connectionId fuel 0
  refine ⟨h.1, h.2, ?_⟩
  have hd : countDelays (connLoop (fun j => mkConnectionResponse (statuses j)) connectionId 0 fuel).1 = m := by
    rw [countDelays, hf, List.length_replicate]
  omega

/-- Witness for claim C1 (amended) at the sequence pending, pending,
trusted with fuel 4. -/
theorem claim_C1_amended_witness :
    (connLoop (fun j => mkConnectionResponse (c1Statuses j)) (some (Js.str "conn-2")) 0 4).2 =
      LoopOutcome.finished (some (Js.str "trusted"))
    ∧ countGets (connLoop (fun j => mkConnectionResponse (c1Statuses j)) (some (Js.str "conn-2")) 0 4).1 = 3
    ∧ countDelays (connLoop (fun j => mkConnectionResponse (c1Statuses j)) (some (Js.str "conn-2")) 0 4).1 = 3 :=
  claim_C1_amended c1Statuses (some (Js.str "conn-2")) 2 4 (by decide) (by decide) (by decide)

/-- Claim C3: for every credential-state response sequence in which
"done" never occurs, the credential-wait loop never terminates: for
every fuel value it is still running (timeout) after performing exactly
one poll per fuel unit, because its only exit is observing "done". -/
theorem claim_C3 (statuses : Nat → String) (credentialId : Option Js)
    (h : ∀ j, statuses j ≠ "done") (fuel : Nat) :
    (credLoop (fun j => mkCredentialResponse (statuses j)) credentialId 0 fuel).2 = LoopOutcome.timeout
    ∧ countGets (credLoop (fun j => mkCredentialResponse (statuses j)) credentialId 0 fuel).1 = fuel :=
  credLoop_never_done statuses credentialId h fuel 0

/-- Witness for claim C3 at the constant sequence offer-sent with
fuel 5. -/
theorem claim_C3_witness :
    (credLoop (fun j => mkCredentialResponse ((fun _ => "offer-sent") j)) (some (Js.str "cred-1")) 0 5).2 = LoopOutcome.timeout
    ∧ countGets (credLoop (fun j => mkCredentialResponse ((fun _ => "offer-sent") j)) (some (Js.str "cred-1")) 0 5).1 = 5 :=
  claim_C3 (fun _ => "offer-sent") (some (Js.str "cred-1"))
    (fun j => by show "offer-sent" ≠ "done"; decide) 5

/-- Claim C5: for every connectionId, attribute value, credential
definition id and endpoint, createCredentialOffer issues exactly one
POST whose body has exactly the fields connectionId,
credentialDefinitionId, comment (empty string), attributes (the
caller-supplied value verbatim) and autoAcceptCredential ("always"), in
that order, and returns the data.id field of the response. -/
theorem claim_C5 (connectionId attributes credentialDefinitionId : Option Js)
    (url : String) (response : Js) :
    (createCredentialOffer connectionId attributes credentialDefinitionId url response).1 =
      [Event.post url (offerBody connectionId attributes credentialDefinitionId)]
    ∧ ((offerBody connectionId attributes credentialDefinitionId).map Prod.fst =
        ["connectionId", "credentialDefinitionId", "comment", "attributes",
         "autoAcceptCredential"]
      ∧ (offerBody connectionId attributes credentialDefinitionId).lookup "connectionId" =
          some connectionId
      ∧ (offerBody connectionId attributes credentialDefinitionId).lookup "credentialDefinitionId" =
          some credentialDefinitionId
      ∧ (offerBody connectionId attributes credentialDefinitionId).lookup "comment" =
          some (some (Js.str ""))
      ∧ (offerBody connectionId attributes credentialDefinitionId).lookup "attributes" =
          some attributes
      ∧ (offerBody connectionId attributes credentialDefinitionId).lookup "autoAcceptCredential" =
          some (some (Js.str "always")))
    ∧ ∀ d, response.get "data" = some d →
        (createCredentialOffer connectionId attributes credentialDefinitionId url response).2 =
          Except.ok (d.get "id") := by
  refine ⟨rfl, ⟨rfl, ?_, ?_, ?_, ?_, ?_⟩, ?_⟩
  · rfl
  · simp [offerBody, List.lookup]
  · simp [offerBody, List.lookup]
  · simp [offerBody, List.lookup]
  · simp [offerBody, List.lookup]
  · intro d hd
    simp [createCredentialOffer, extractOfferId, jsAccess, hd, Bind.bind, Except.bind]

/-- Witness for claim C5 at concrete arguments and a response carrying
id "cred-77". -/
theorem claim_C5_witness :
    (createCredentialOffer (some (Js.str "conn-9")) (some testAttributes)
      (some (Js.str "cd-1")) "http://example/offer"
      (Js.obj [("data", Js.obj [("id", Js.str "cred-77")])])).2 =
      Except.ok (some (Js.str "cred-77")) :=
  (claim_C5 (some (Js.str "conn-9")) (some testAttributes) (some (Js.str "cd-1"))
      "http://example/offer" (Js.obj [("data", Js.obj [("id", Js.str "cred-77")])])).2.2
    (Js.obj [("id", Js.str "cred-77")]) rfl

/-- Claim C6: for every well-formed invitation response (data,
data.invitationUrl, data.connection and data.connection.id all present),
createInvitation returns the invitation whose invitationUrl is exactly
data.invitationUrl and whose connectionId is exactly
data.connection.id. -/
theorem claim_C6 (response d u c i : Js)
    (h1 : response.get "data" = some d)
    (h2 : d.get "invitationUrl" = some u)
    (h3 : d.get "connection" = some c)
    (h4 : c.get "id" = some i) :
    createInvitationResult response = Except.ok ⟨some u, some i⟩ := by
  simp [createInvitationResult, jsAccess, h1, h2, h3, h4, Bind.bind, Except.bind,
        Functor.map, Except.map, pure, Except.pure]

/-- Witness for claim C6 at the end-to-end invitation response. -/
theorem claim_C6_witness :
    createInvitationResult oEndToEnd.invitationResponse =
      Except.ok ⟨some (Js.str "https://wallet.example/inv/abc"), some (Js.str "conn-1")⟩ :=
  claim_C6 _ _ _ _ _ rfl rfl rfl rfl

/-- Claim C7 (amended): if the offer-creation response has a data
object lacking the id field, createCredentialOffer succeeds and hands
the orchestrator an undefined credentialId instead of failing; it can
only throw when the data field itself is absent. -/
theorem claim_C7_amended (response d : Js)
    (h1 : response.get "data" = some d) (h2 : d.get "id" = none) :
    extractOfferId response = Except.ok none := by
  simp [extractOfferId, jsAccess, h1, h2, Bind.bind, Except.bind]

/-- Witness for claim C7 (amended) at a response whose data object is
empty. -/
theorem claim_C7_amended_witness :
    extractOfferId (Js.obj [("data", Js.obj [])]) = Except.ok none :=
  claim_C7_amended (Js.obj [("data", Js.obj [])]) (Js.obj []) rfl rfl

/-- No offer POST occurs before the connection loop has run. -/
theorem any_offer_intro_conn (inv : Invitation) (r : Nat → Js) (c : Option Js) (f i : Nat) :
    (introEvents inv ++ (connLoop r c i f).1).any isOfferPostE = false := by
  rw [List.any_append, introEvents_not_offer, connLoop_not_offer]
  rfl

/-- No credential-state GET occurs before the connection loop ends. -/
theorem any_credGet_intro_conn (inv : Invitation) (r : Nat → Js) (c : Option Js) (f i : Nat) :
    (introEvents inv ++ (connLoop r c i f).1).any isCredGetE = false := by
  rw [List.any_append, introEvents_not_credGet, connLoop_not_credGet]
  rfl

/-- No credential-state GET occurs up to and including the offer POST. -/
theorem any_credGet_intro_conn_op (inv : Invitation) (r : Nat → Js) (c : Option Js) (f i : Nat) :
    ((introEvents inv ++ (connLoop r c i f).1) ++ [offerPostEvent inv]).any isCredGetE = false := by
  rw [List.any_append, any_credGet_intro_conn]
  simp [isCredGetE, offerPostEvent]

/-- Once the connection loop has finished, the events so far contain the
"trusted" log. -/
theorem any_trusted_intro_conn (inv : Invitation) (r : Nat → Js) (c : Option Js)
    (f i : Nat) (st : Option Js) (h : (connLoop r c i f).2 = .finished st) :
    (introEvents inv ++ (connLoop r c i f).1).any isTrustedLogE = true := by
  rw [List.any_append, connLoop_finished_any_trusted r c f i st h]
  simp

/-- The events up to and including the offer POST contain the offer POST. -/
theorem any_offer_intro_conn_op (inv : Invitation) (r : Nat → Js) (c : Option Js) (f i : Nat) :
    ((introEvents inv ++ (connLoop r c i f).1) ++ [offerPostEvent inv]).any isOfferPostE = true := by
  rw [List.any_append]
  simp [isOfferPostE, offerPostEvent]

/-- Claim C4: in every run, the offer POST is strictly preceded by a
connection poll observing "trusted" (the logged comparison value of the
exit test), every credential-state poll is strictly preceded by the
offer POST, and a completed run ends exactly with a credential poll that
observed "done". -/
theorem claim_C4 (o : Oracle) (f1 f2 : Nat) :
    PrecededBy isTrustedLogE isOfferPostE (tests o f1 f2).1
    ∧ PrecededBy isOfferPostE isCredGetE (tests o f1 f2).1
    ∧ ∀ cid, (tests o f1 f2).2 = FlowResult.completed cid →
        ∃ pre, (tests o f1 f2).1 = pre ++
          [Event.delay 2500, Event.get credentialUrlDefault (jsValToString cid),
           Event.log "done"] := by
  rcases tests_shape o f1 f2 with ⟨e, hinv, htr⟩ |
    ⟨inv, hinv, ⟨e, hconn, htr⟩ | ⟨hconn, htr⟩ |
      ⟨st, hconn, ⟨e, hoff, htr⟩ | ⟨cid, hoff, ⟨e, hcred, htr⟩ | ⟨hcred, htr⟩ |
        ⟨st₂, hcred, htr⟩⟩⟩⟩ <;>
    rw [htr]
  · refine ⟨precededBy_of_not_any _ (by simp [isOfferPostE]; decide),
      precededBy_of_not_any _ (by simp [isCredGetE]), ?_⟩
    intro cid hc
    simp at hc
  · refine ⟨precededBy_of_not_any _ (any_offer_intro_conn inv _ _ _ _),
      precededBy_of_not_any _ (any_credGet_intro_conn inv _ _ _ _), ?_⟩
    intro cid hc
    simp at hc
  · refine ⟨precededBy_of_not_any _ (any_offer_intro_conn inv _ _ _ _),
      precededBy_of_not_any _ (any_credGet_intro_conn inv _ _ _ _), ?_⟩
    intro cid hc
    simp at hc
  · refine ⟨precededBy_split (any_trusted_intro_conn inv _ _ _ _ st hconn)
        (any_offer_intro_conn inv _ _ _ _),
      precededBy_of_not_any _ (any_credGet_intro_conn_op inv _ _ _ _), ?_⟩
    intro cid hc
    simp at hc
  · refine ⟨?_, ?_, ?_⟩
    · rw [List.append_assoc (introEvents inv ++ _)]
      exact precededBy_split (any_trusted_intro_conn inv _ _ _ _ st hconn)
        (any_offer_intro_conn inv _ _ _ _)
    · exact precededBy_split (any_offer_intro_conn_op inv _ _ _ _)
        (any_credGet_intro_conn_op inv _ _ _ _)
    · intro cid' hc
      simp at hc
  · refine ⟨?_, ?_, ?_⟩
    · rw [List.append_assoc (introEvents inv ++ _)]
      exact precededBy_split (any_trusted_intro_conn inv _ _ _ _ st hconn)
        (any_offer_intro_conn inv _ _ _ _)
    · exact precededBy_split (any_offer_intro_conn_op inv _ _ _ _)
        (any_credGet_intro_conn_op inv _ _ _ _)
    · intro cid' hc
      simp at hc
  · refine ⟨?_, ?_, ?_⟩
    · rw [List.append_assoc (introEvents inv ++ _)]
      exact precededBy_split (any_trusted_intro_conn inv _ _ _ _ st hconn)
        (any_offer_intro_conn inv _ _ _ _)
    · exact precededBy_split (any_offer_intro_conn_op inv _ _ _ _)
        (any_credGet_intro_conn_op inv _ _ _ _)
    · intro cid' hc
      simp only at hc
      have hcid : cid' = cid := by
        cases hc
        rfl
      subst hcid
      obtain ⟨pre, hp⟩ := credLoop_finished_shape o.credentialResponses cid' f2 0 st₂ hcred
      refine ⟨(introEvents inv ++ (connLoop o.connectionResponses inv.connectionId 0 f1).1 ++
        [offerPostEvent inv]) ++ pre, ?_⟩
      simp only [hp, List.append_assoc]

/-- Witness for claim C4 on the end-to-end oracle: the prefix holding
the offer POST already holds the "trusted" log, and the completed run
ends on the "done" poll. -/
theorem claim_C4_witness :
    ((tests oEndToEnd 10 10).1.take 13).any isTrustedLogE = true
    ∧ ∃ pre, (tests oEndToEnd 10 10).1 = pre ++
        [Event.delay 2500,
         Event.get credentialUrlDefault (jsValToString (some (Js.str "cred-1"))),
         Event.log "done"] := by
  constructor
  · exact (claim_C4 oEndToEnd 10 10).1 ((tests oEndToEnd 10 10).1.take 13)
      ((tests oEndToEnd 10 10).1.drop 13) (List.take_append_drop 13 _).symm (by decide)
  · exact (claim_C4 oEndToEnd 10 10).2.2 (some (Js.str "cred-1")) rfl

/-- Claim C8: whenever any of the four service-client operations fails,
the error propagates out of the orchestrator unhandled and verbatim
(the run result carries exactly the failing operation's extraction
error) and the flow terminates at that point: the trace ends with the
failing operation's own request, so no further service request is
issued, and in the polling loops every earlier poll consumed its own
fresh response index (k + 1 polls for response indexes 0..k), so no
operation is retried at any layer. -/
theorem claim_C8 (o : Oracle) (f1 f2 : Nat) (e : String)
    (h : (tests o f1 f2).2 = FlowResult.failed e) :
    StopsAtFailingRequest o f1 f2 e := by
  rcases tests_shape o f1 f2 with ⟨e', hinv, htr⟩ |
    ⟨inv, hinv, ⟨e', hconn, htr⟩ | ⟨hconn, htr⟩ |
      ⟨st, hconn, ⟨e', hoff, htr⟩ | ⟨cid, hoff, ⟨e', hcred, htr⟩ | ⟨hcred, htr⟩ |
        ⟨st₂, hcred, htr⟩⟩⟩⟩ <;>
    rw [htr] at h <;> unfold StopsAtFailingRequest
  · have he : e' = e := by simpa using h
    subst he
    exact Or.inl ⟨hinv, by rw [htr]⟩
  · have he : e' = e := by simpa using h
    subst he
    obtain ⟨k, pre, hk, hprev, htr', hcount⟩ :=
      connLoop_failed_full o.connectionResponses inv.connectionId f1 0 e' hconn
    simp only [Nat.zero_add] at hk hprev
    refine Or.inr (Or.inl ⟨inv, k, introEvents inv ++ pre, hinv, hk, hprev, ?_, ?_⟩)
    · rw [htr]
      simp [htr', List.append_assoc]
    · rw [htr]
      have hnone : countGets (introEvents inv ++
          (connLoop o.connectionResponses inv.connectionId 0 f1).1) =
          countGets (connLoop o.connectionResponses inv.connectionId 0 f1).1 := by
        simp [countGets, List.filter_append, introEvents, isGetE, List.filter]
      rw [hnone, hcount]
  · simp at h
  · have he : e' = e := by simpa using h
    subst he
    exact Or.inr (Or.inr (Or.inl ⟨inv, st, hinv, hconn, hoff, by rw [htr]⟩))
  · have he : e' = e := by simpa using h
    subst he
    obtain ⟨k, pre, hk, hprev, htr', hcount⟩ :=
      credLoop_failed_full o.credentialResponses cid f2 0 e' hcred
    simp only [Nat.zero_add] at hk hprev
    refine Or.inr (Or.inr (Or.inr ⟨inv, st, cid, k,
      (introEvents inv ++ (connLoop o.connectionResponses inv.connectionId 0 f1).1 ++
        [offerPostEvent inv]) ++ pre, hinv, hconn, hoff, hk, hprev, ?_, hcount⟩))
    rw [htr]
    simp [htr', List.append_assoc]
  · simp at h
  · simp at h

/-- Witness for claim C8 on a service whose invitation response lacks
the data field: the run fails with the TypeError of the invitation
extraction and the trace stops at the invitation POST. -/
theorem claim_C8_witness :
    (tests oInvitationMalformed 1 1).2 = FlowResult.failed (typeErrorReading "invitationUrl")
    ∧ StopsAtFailingRequest oInvitationMalformed 1 1 (typeErrorReading "invitationUrl") :=
  ⟨rfl, claim_C8 oInvitationMalformed 1 1 (typeErrorReading "invitationUrl") rfl⟩

/-- Shared timing facts for every run that gets past the invitation:
the delay trace is the 5000 ms grace followed by 2500 ms poll delays,
every GET comes after the grace delay, and the run opens with the three
pre-loop events. -/
theorem flow_timing_parts (inv : Invitation) (rest : List Event)
    (hrest : ∃ k, rest.filter isDelayE = List.replicate k (Event.delay 2500)) :
    ((introEvents inv ++ rest).filter isDelayE = [] ∨
      ∃ k, (introEvents inv ++ rest).filter isDelayE =
        Event.delay 5000 :: List.replicate k (Event.delay 2500))
    ∧ PrecededBy isDelay5000E isGetE (introEvents inv ++ rest)
    ∧ (introEvents inv ++ rest).take 3 = introEvents inv := by
  obtain ⟨k, hk⟩ := hrest
  refine ⟨Or.inr ⟨k, ?_⟩,
    precededBy_split (introEvents_has_delay5000 inv) (introEvents_not_get inv), ?_⟩
  · rw [List.filter_append, hk]
    simp [introEvents, isDelayE, List.filter]
  · simp [introEvents, List.take]

/-- Claim C9: in every run the delay trace is empty (invitation failed
before the grace period) or the single 5000 ms grace delay followed by
one 2500 ms delay per loop iteration; every poll happens after the
grace delay; and once the invitation returns, the run opens with the
invitation POST, the surfaced invitation URL, then the 5000 ms grace
delay. -/
theorem claim_C9 (o : Oracle) (f1 f2 : Nat) :
    ((tests o f1 f2).1.filter isDelayE = [] ∨
      ∃ k, (tests o f1 f2).1.filter isDelayE =
        Event.delay 5000 :: List.replicate k (Event.delay 2500))
    ∧ PrecededBy isDelay5000E isGetE (tests o f1 f2).1
    ∧ ∀ inv, createInvitationResult o.invitationResponse = Except.ok inv →
        (tests o f1 f2).1.take 3 = introEvents inv := by
  have invuniq : ∀ (inv inv' : Invitation),
      createInvitationResult o.invitationResponse = Except.ok inv →
      createInvitationResult o.invitationResponse = Except.ok inv' → inv' = inv := by
    intro inv inv' h h'
    rw [h] at h'
    injection h' with hh
    exact hh.symm
  rcases tests_shape o f1 f2 with ⟨e, hinv, htr⟩ |
    ⟨inv, hinv, ⟨e, hconn, htr⟩ | ⟨hconn, htr⟩ |
      ⟨st, hconn, ⟨e, hoff, htr⟩ | ⟨cid, hoff, ⟨e, hcred, htr⟩ | ⟨hcred, htr⟩ |
        ⟨st₂, hcred, htr⟩⟩⟩⟩ <;>
    rw [htr]
  · refine ⟨Or.inl (by simp [isDelayE, List.filter]),
      precededBy_of_not_any _ (by simp [isGetE]), ?_⟩
    intro inv' hinv'
    rw [hinv] at hinv'
    simp at hinv'
  · obtain ⟨n1, hf1, -⟩ :=
      connLoop_delays_polls o.connectionResponses inv.connectionId f1 0
    have parts := flow_timing_parts inv _ ⟨n1, hf1⟩
    exact ⟨parts.1, parts.2.1, fun inv' hinv' => by
      rw [invuniq inv inv' hinv hinv']
      exact parts.2.2⟩
  · obtain ⟨n1, hf1, -⟩ :=
      connLoop_delays_polls o.connectionResponses inv.connectionId f1 0
    have parts := flow_timing_parts inv _ ⟨n1, hf1⟩
    exact ⟨parts.1, parts.2.1, fun inv' hinv' => by
      rw [invuniq inv inv' hinv hinv']
      exact parts.2.2⟩
  · obtain ⟨n1, hf1, -⟩ :=
      connLoop_delays_polls o.connectionResponses inv.connectionId f1 0
    have hrest : ∃ k,
        ((connLoop o.connectionResponses inv.connectionId 0 f1).1 ++
          [offerPostEvent inv]).filter isDelayE =
          List.replicate k (Event.delay 2500) := by
      refine ⟨n1, ?_⟩
      rw [List.filter_append, hf1]
      simp [isDelayE, offerPostEvent, List.filter]
    have parts := flow_timing_parts inv _ hrest
    rw [List.append_assoc]
    exact ⟨parts.1, parts.2.1, fun inv' hinv' => by
      rw [invuniq inv inv' hinv hinv']
      exact parts.2.2⟩
  all_goals {
    obtain ⟨n1, hf1, -⟩ :=
      connLoop_delays_polls o.connectionResponses inv.connectionId f1 0
    obtain ⟨n2, hf2, -⟩ :=
      credLoop_delays_polls o.credentialResponses cid f2 0
    have hrest : ∃ k,
        ((connLoop o.connectionResponses inv.connectionId 0 f1).1 ++
          ([offerPostEvent inv] ++
            (credLoop o.credentialResponses cid 0 f2).1)).filter isDelayE =
          List.replicate k (Event.delay 2500) := by
      refine ⟨n1 + n2, ?_⟩
      rw [List.filter_append, List.filter_append, hf1, hf2, List.replicate_add]
      simp [isDelayE, offerPostEvent, List.filter]
    have parts := flow_timing_parts inv _ hrest
    rw [List.append_assoc, List.append_assoc]
    exact ⟨parts.1, parts.2.1, fun inv' hinv' => by
      rw [invuniq inv inv' hinv hinv']
      exact parts.2.2⟩ }

/-- Witness for claim C9 on the end-to-end oracle. -/
theorem claim_C9_witness :
    ((tests oEndToEnd 10 10).1.take 5).any isDelay5000E = true
    ∧ (tests oEndToEnd 10 10).1.take 3 = introEvents
        ⟨some (Js.str "https://wallet.example/inv/abc"), some (Js.str "conn-1")⟩ := by
  constructor
  · exact (claim_C9 oEndToEnd 10 10).2.1 ((tests oEndToEnd 10 10).1.take 5)
      ((tests oEndToEnd 10 10).1.drop 5) (List.take_append_drop 5 _).symm (by decide)
  · exact (claim_C9 oEndToEnd 10 10).2.2 _ rfl

/-- Scanning a run that has entered the connection loop up to its first
GET: the three pre-loop events plus the first inter-poll delay. -/
theorem takeWhile_flow (inv : Invitation) (s : String) (rest : List Event) :
    (introEvents inv ++ (Event.delay 2500 :: Event.get connectionsUrlDefault s :: rest)).takeWhile
        (fun e => !(isGetE e)) =
      [Event.post inviteUrlDefault [], Event.log (qrMessage inv), Event.delay 5000,
       Event.delay 2500] := by
  simp [introEvents, List.takeWhile_cons, isGetE]

/-- Claim C10: in both polling loops the delay trace is exactly one
2500 ms delay per poll (each poll is preceded by its own delay), and in
any run that polls at all, the events before the first GET are exactly
the invitation POST, the log of the invitation URL, the 5000 ms grace
delay and one further 2500 ms delay. -/
theorem claim_C10 :
    (∀ (r : Nat → Js) (c : Option Js) (i fuel : Nat),
        (connLoop r c i fuel).1.filter isDelayE =
          List.replicate (countGets (connLoop r c i fuel).1) (Event.delay 2500))
    ∧ (∀ (r : Nat → Js) (c : Option Js) (i fuel : Nat),
        (credLoop r c i fuel).1.filter isDelayE =
          List.replicate (countGets (credLoop r c i fuel).1) (Event.delay 2500))
    ∧ ∀ (o : Oracle) (f1 f2 : Nat), (tests o f1 f2).1.any isGetE = true →
        ∃ m, (tests o f1 f2).1.takeWhile (fun e => !(isGetE e)) =
          [Event.post inviteUrlDefault [], Event.log m, Event.delay 5000,
           Event.delay 2500] := by
  refine ⟨?_, ?_, ?_⟩
  · intro r c i fuel
    obtain ⟨n, hf, hg⟩ := connLoop_delays_polls r c fuel i
    rw [hg]
    exact hf
  · intro r c i fuel
    obtain ⟨n, hf, hg⟩ := credLoop_delays_polls r c fuel i
    rw [hg]
    exact hf
  · intro o f1 f2 hget
    rcases tests_shape o f1 f2 with ⟨e, hinv, htr⟩ |
      ⟨inv, hinv, ⟨e, hconn, htr⟩ | ⟨hconn, htr⟩ |
        ⟨st, hconn, ⟨e, hoff, htr⟩ | ⟨cid, hoff, ⟨e, hcred, htr⟩ | ⟨hcred, htr⟩ |
          ⟨st₂, hcred, htr⟩⟩⟩⟩ <;>
      rw [htr] at hget ⊢
    · simp [isGetE] at hget
    · cases f1 with
      | zero => simp [connLoop] at hconn
      | succ f =>
        obtain ⟨tail, htail⟩ := connLoop_head o.connectionResponses inv.connectionId 0 f
        refine ⟨qrMessage inv, ?_⟩
        rw [htail]
        exact takeWhile_flow inv _ tail
    · cases f1 with
      | zero =>
        rw [show connLoop o.connectionResponses inv.connectionId 0 0 = ([], .timeout) from rfl] at hget
        rw [List.append_nil] at hget
        rw [introEvents_not_get] at hget
        cases hget
      | succ f =>
        obtain ⟨tail, htail⟩ := connLoop_head o.connectionResponses inv.connectionId 0 f
        refine ⟨qrMessage inv, ?_⟩
        rw [htail]
        exact takeWhile_flow inv _ tail
    · cases f1 with
      | zero => simp [connLoop] at hconn
      | succ f =>
        obtain ⟨tail, htail⟩ := connLoop_head o.connectionResponses inv.connectionId 0 f
        refine ⟨qrMessage inv, ?_⟩
        rw [List.append_assoc, htail]
        simp only [List.cons_append]
        exact takeWhile_flow inv _ _
    · cases f1 with
      | zero => simp [connLoop] at hconn
      | succ f =>
        obtain ⟨tail, htail⟩ := connLoop_head o.connectionResponses inv.connectionId 0 f
        refine ⟨qrMessage inv, ?_⟩
        rw [List.append_assoc, List.append_assoc, htail]
        simp only [List.cons_append]
        exact takeWhile_flow inv _ _
    · cases f1 with
      | zero => simp [connLoop] at hconn
      | succ f =>
        obtain ⟨tail, htail⟩ := connLoop_head o.connectionResponses inv.connectionId 0 f
        refine ⟨qrMessage inv, ?_⟩
        rw [List.append_assoc, List.append_assoc, htail]
        simp only [List.cons_append]
        exact takeWhile_flow inv _ _
    · cases f1 with
      | zero => simp [connLoop] at hconn
      | succ f =>
        obtain ⟨tail, htail⟩ := connLoop_head o.connectionResponses inv.connectionId 0 f
        refine ⟨qrMessage inv, ?_⟩
        rw [List.append_assoc, List.append_assoc, htail]
        simp only [List.cons_append]
        exact takeWhile_flow inv _ _

/-- Witness for claim C10 on the end-to-end oracle. -/
theorem claim_C10_witness :
    ∃ m, (tests oEndToEnd 10 10).1.takeWhile (fun e => !(isGetE e)) =
      [Event.post inviteUrlDefault [], Event.log m, Event.delay 5000,
       Event.delay 2500] :=
  claim_C10.2.2 oEndToEnd 10 10 (by decide)
